import Mathlib

/-!
Verification of the FLAC metadata block decoder (flacmeta.go, package flac).

The Go code is shallowly embedded: byte streams are lists of naturals
(every byte value is taken mod 256 where it is consumed), machine integer
casts are modelled with explicit mod-2^w arithmetic, a function that can
return a Go error yields PResult.err, and a Go runtime panic (out of range
slice index inside encoding/binary or a direct index) yields PResult.crash.
bytes.Buffer.Next n is modelled by List.take n / List.drop n, which matches
its behaviour of returning fewer bytes when the buffer is short.
-/

namespace Flac

/-- Error outcomes of the decoders, one tag per distinct Go error return. -/
inductive ErrTag : Type where
  | sigRead
  | sigInvalid
  | headerRead
  | blockRead
  | invalidBlockType
  | seektableHeaderLen
  | seektableBlockLen
  | duplicateBlock (t : Nat)
  | appDataAlign
  | totalTracksZero
  | trackNumberZero
  | indexOffset588
  | minBlockSizeRead
  | minBlockSizeRange
  | maxBlockSizeRange
  | sampleRateRange
  deriving DecidableEq, Repr

/-- Result of running a Go function: normal value, returned error, or a
runtime panic (modelled as crash). -/
inductive PResult (α : Type) : Type where
  | ok (a : α) : PResult α
  | err (e : ErrTag) : PResult α
  | crash : PResult α
  deriving DecidableEq, Repr

/-- binary.BigEndian.Uint16: reads the first 2 bytes, panics when fewer
than 2 bytes are available. -/
def beUint16 : List Nat → Option Nat
  | b0 :: b1 :: _ => some ((b0 % 256) * 256 + b1 % 256)
  | _ => none

/-- binary.BigEndian.Uint32: reads the first 4 bytes, panics when fewer
than 4 bytes are available. -/
def beUint32 : List Nat → Option Nat
  | b0 :: b1 :: b2 :: b3 :: _ =>
      some ((((b0 % 256) * 256 + b1 % 256) * 256 + b2 % 256) * 256 + b3 % 256)
  | _ => none

/-- binary.BigEndian.Uint64: reads the first 8 bytes, panics when fewer
than 8 bytes are available. -/
def beUint64 : List Nat → Option Nat
  | b0 :: b1 :: b2 :: b3 :: b4 :: b5 :: b6 :: b7 :: _ =>
      some ((((((((b0 % 256) * 256 + b1 % 256) * 256 + b2 % 256) * 256 +
        b3 % 256) * 256 + b4 % 256) * 256 + b5 % 256) * 256 + b6 % 256) * 256
        + b7 % 256)
  | _ => none

/-- binary.LittleEndian.Uint32: reads the first 4 bytes little endian,
panics when fewer than 4 bytes are available. -/
def leUint32 : List Nat → Option Nat
  | b0 :: b1 :: b2 :: b3 :: _ =>
      some (b0 % 256 + (b1 % 256) * 256 + (b2 % 256) * 65536 +
        (b3 % 256) * 16777216)
  | _ => none

/-- Big endian value of a whole byte list (used for fixed size records
whose length has already been checked). -/
def beVal (l : List Nat) : Nat := l.foldl (fun a b => a * 256 + b % 256) 0

/-- LookupHeaderType from flacmeta.go: the switch over known block type
codes; every unknown code and 127 map to MetadataInvalid = 127. -/
def lookupHeaderType (i : Nat) : Nat :=
  if i = 0 then 0
  else if i = 1 then 1
  else if i = 2 then 2
  else if i = 3 then 3
  else if i = 4 then 4
  else if i = 5 then 5
  else if i = 6 then 6
  else if i = 127 then 127
  else 127

/-- LookupPictureType: PictureTypeMap lookup with the empty string mapped
to UNKNOWN. -/
def lookupPictureType (k : Nat) : String :=
  match k with
  | 0 => "Other"
  | 1 => "File Icon"
  | 2 => "Other File Icon"
  | 3 => "Cover (front)"
  | 4 => "Cover (back)"
  | 5 => "Leaflet Page"
  | 6 => "Media"
  | 7 => "Lead Artist/Lead Performer/Soloist"
  | 8 => "Artist/Performer"
  | 9 => "Conductor"
  | 10 => "Band/Orchestra"
  | 11 => "Composer"
  | 12 => "Lyricist/Text Writer"
  | 13 => "Recording Location"
  | 14 => "During Recording"
  | 15 => "During Performance"
  | 16 => "Movie/Video Screen Capture"
  | 17 => "A Bright Coloured Fish"
  | 18 => "Illustration"
  | 19 => "Band/Artist Logotype"
  | 20 => "Publisher/Studio Logotype"
  | _ => "UNKNOWN"

/-- One lowercase hex digit, as an ASCII byte. -/
def hexDigitLower (n : Nat) : Nat := if n < 10 then 48 + n else 87 + n

/-- Two lowercase hex digits of one byte, as ASCII bytes. -/
def hexByte (b : Nat) : List Nat := [hexDigitLower (b / 16 % 16), hexDigitLower (b % 16)]

/-- fmt.Sprintf with the x verb on a byte slice: two lowercase hex digits
per byte, no separators. -/
def hexString (l : List Nat) : List Nat := l.flatMap (fun b => hexByte (b % 256))

/-- encoding/hex toChar: printable ASCII stays, everything else becomes a
dot. -/
def dumpToChar (b : Nat) : Nat := if b % 256 < 32 ∨ 126 < b % 256 then 46 else b % 256

/-- encoding/hex dumper line prefix: the running offset as eight lowercase
hex digits (the offset counter is a uint32). -/
def dumpOffset (n : Nat) : List Nat :=
  hexByte (n / 16777216 % 256) ++ hexByte (n / 65536 % 256) ++
    hexByte (n / 256 % 256) ++ hexByte (n % 256)

/-- One cell of the hex area of a dump line: position p holds either the
hex of a byte plus a space or three pad spaces, with one extra space after
position 7 and the extra space plus the left bar at position 15. -/
def dumpCell (p : Nat) (b : Option Nat) : List Nat :=
  (match b with
   | some v => hexByte (v % 256) ++ [32]
   | none => [32, 32, 32]) ++
  (if p = 7 then [32] else if p = 15 then [32, 124] else [])

/-- One full line of encoding/hex Dump output for as many as 16 bytes. -/
def dumpLine (off : Nat) (chunk : List Nat) : List Nat :=
  dumpOffset off ++ [32, 32] ++
    (List.range 16).flatMap (fun p => dumpCell p chunk[p]?) ++
    chunk.map dumpToChar ++ [124, 10]

/-- encoding/hex Dump, line by line. The first argument is recursion
fuel, always at least the byte count, so the fuel branch is never taken;
it keeps the recursion structural so that proofs can evaluate it. -/
def hexDumpAux : Nat → Nat → List Nat → List Nat
  | _, _, [] => []
  | 0, _, _ :: _ => []
  | fuel + 1, off, b :: rest =>
      dumpLine off (b :: rest.take 15) ++ hexDumpAux fuel (off + 16) (rest.drop 15)

/-- encoding/hex Dump of a byte slice; empty input dumps to the empty
string. -/
def hexDump (data : List Nat) : List Nat := hexDumpAux data.length 0 data

-- Data model structures, one per flacmeta.go struct. Go string fields that
-- carry raw bytes are lists of byte values; PictureType is the looked up
-- table name and stays a Lean String.

structure ApplicationBlock : Type where
  Id : Nat
  Data : List Nat
  deriving DecidableEq, Repr

structure CuesheetTrackIndexBlock : Type where
  SampleOffset : Nat
  IndexPoint : Nat
  deriving DecidableEq, Repr

structure CuesheetTrackBlock : Type where
  TrackOffset : Nat
  TrackNumber : Nat
  TrackISRC : List Nat
  TrackType : Nat
  PreEmphasis : Bool
  IndexPoints : Nat
  CuesheetTrackIndexes : List CuesheetTrackIndexBlock
  deriving DecidableEq, Repr

structure CuesheetBlock : Type where
  MediaCatalogNumber : List Nat
  LeadinSamples : Nat
  IsCompactDisc : Bool
  TotalTracks : Nat
  CuesheetTracks : List CuesheetTrackBlock
  deriving DecidableEq, Repr

structure MetadataBlockHeader : Type where
  BlockType : Nat
  Length : Nat
  Last : Bool
  SeekPoints : Nat
  deriving DecidableEq, Repr

structure PictureBlock : Type where
  PictureType : String
  MimeType : List Nat
  PictureDescription : List Nat
  Width : Nat
  Height : Nat
  ColorDepth : Nat
  NumColors : Nat
  Length : Nat
  PictureBlob : List Nat
  deriving DecidableEq, Repr

structure SeekpointBlock : Type where
  SampleNumber : Nat
  Offset : Nat
  FrameSamples : Nat
  deriving DecidableEq, Repr

structure StreaminfoBlock : Type where
  MinBlockSize : Nat
  MaxBlockSize : Nat
  MinFrameSize : Nat
  MaxFrameSize : Nat
  SampleRate : Nat
  Channels : Nat
  BitsPerSample : Nat
  TotalSamples : Nat
  MD5Signature : List Nat
  deriving DecidableEq, Repr

structure VorbisCommentBlock : Type where
  Vendor : List Nat
  TotalComments : Nat
  Comments : List (List Nat)
  deriving DecidableEq, Repr

/-- Metadata: the aggregate that Metadata.Read populates. Each IsPopulated
flag of the Go wrapper structs is modelled by Option, populated iff some.
TotalBlocks exists in the Go struct and is never written by Read. -/
structure Metadata : Type where
  streaminfo : Option (MetadataBlockHeader × StreaminfoBlock)
  application : Option (MetadataBlockHeader × ApplicationBlock)
  vorbisComment : Option (MetadataBlockHeader × VorbisCommentBlock)
  pictures : List (MetadataBlockHeader × PictureBlock)
  padding : Option MetadataBlockHeader
  seektable : Option (MetadataBlockHeader × List SeekpointBlock)
  cuesheet : Option (MetadataBlockHeader × CuesheetBlock)
  totalBlocks : Nat
  deriving DecidableEq, Repr

def emptyMetadata : Metadata := ⟨none, none, none, [], none, none, none, 0⟩

/-- ApplicationBlock.Parse. The id read uses buf.Next(ApplicationIdLen)
with ApplicationIdLen = 32 given in bits and no division by 8, so it
consumes 32 bytes; Uint32 then decodes the first 4 of them and panics when
fewer than 4 bytes exist. The multiple of 8 check applies to what remains
after those 32 bytes. -/
def applicationBlockParse (block : List Nat) : PResult ApplicationBlock :=
  match beUint32 (block.take 32) with
  | none => .crash
  | some id =>
    let rest := block.drop 32
    if rest.length % 8 ≠ 0 then .err .appDataAlign
    else .ok ⟨id, rest⟩

/-- StreaminfoBlock.Parse: one 2 byte read with an explicit length check,
then two 8 byte big endian groups split by mask and shift with uint16,
uint32 and uint8 truncating casts, then 16 bytes rendered as lowercase
hex. -/
def streaminfoBlockParse (block : List Nat) : PResult StreaminfoBlock :=
  let mbs := block.take 2
  if mbs.length ≠ 2 then .err .minBlockSizeRead
  else
    match beUint16 mbs with
    | none => .crash
    | some minBlockSize =>
      if 0 < minBlockSize ∧ minBlockSize < 16 then .err .minBlockSizeRange
      else
        let b1 := block.drop 2
        match beUint64 b1 with
        | none => .crash
        | some bits =>
          let maxBlockSize := bits / 2 ^ 48 % 2 ^ 16
          if maxBlockSize < 16 then .err .maxBlockSizeRange
          else
            let minFrameSize := bits / 2 ^ 24 % 2 ^ 32
            let maxFrameSize := bits % 2 ^ 24
            let b2 := b1.drop 8
            match beUint64 b2 with
            | none => .crash
            | some bits2 =>
              let sampleRate := bits2 / 2 ^ 44 % 2 ^ 32
              if sampleRate = 0 ∨ 655350 ≤ sampleRate then .err .sampleRateRange
              else
                let channels := (bits2 / 2 ^ 41 % 8 % 256 + 1) % 256
                let bitsPerSample := (bits2 / 2 ^ 36 % 32 % 256 + 1) % 256
                let totalSamples := bits2 % 2 ^ 36
                let sig := (b2.drop 8).take 16
                .ok ⟨minBlockSize, maxBlockSize, minFrameSize, maxFrameSize,
                  sampleRate, channels, bitsPerSample, totalSamples, hexString sig⟩

/-- Comment loop of VorbisCommentBlock.Parse: TotalComments iterations,
each reading a little endian u32 length (a panic when fewer than 4 bytes
remain) and then that many bytes, fewer when the buffer is short. -/
def vcLoop : Nat → List Nat → List (List Nat) → Option (List (List Nat))
  | 0, _, acc => some acc
  | tc + 1, buf, acc =>
    match leUint32 buf with
    | none => none
    | some n => vcLoop tc ((buf.drop 4).drop n) (acc ++ [(buf.drop 4).take n])

/-- VorbisCommentBlock.Parse: little endian vendor length, vendor bytes,
little endian comment count, then the comment loop. No error checking
exists in the source; the only abnormal outcome is a panic on a u32 read
with fewer than 4 bytes left. -/
def vorbisCommentBlockParse (block : List Nat) : PResult VorbisCommentBlock :=
  match leUint32 block with
  | none => .crash
  | some vlen =>
    let b1 := block.drop 4
    let vendor := b1.take vlen
    let b2 := b1.drop vlen
    match leUint32 b2 with
    | none => .crash
    | some tc =>
      match vcLoop tc (b2.drop 4) [] with
      | none => .crash
      | some comments => .ok ⟨vendor, tc, comments⟩

/-- PictureBlock.Parse: sequential big endian u32 fields with length
prefixed strings, the description read only when its length is positive,
and the blob stored as the hex.Dump rendering of the blob bytes. -/
def pictureBlockParse (block : List Nat) : PResult PictureBlock :=
  match beUint32 (block.take 4) with
  | none => .crash
  | some pt =>
    let b1 := block.drop 4
    match beUint32 (b1.take 4) with
    | none => .crash
    | some mimeLen =>
      let mime := (b1.drop 4).take mimeLen
      let b2 := (b1.drop 4).drop mimeLen
      match beUint32 (b2.take 4) with
      | none => .crash
      | some descLen =>
        let desc := if 0 < descLen then (b2.drop 4).take descLen else []
        let b3 := if 0 < descLen then (b2.drop 4).drop descLen else b2.drop 4
        match beUint32 (b3.take 4) with
        | none => .crash
        | some w =>
          let b4 := b3.drop 4
          match beUint32 (b4.take 4) with
          | none => .crash
          | some h =>
            let b5 := b4.drop 4
            match beUint32 (b5.take 4) with
            | none => .crash
            | some cd =>
              let b6 := b5.drop 4
              match beUint32 (b6.take 4) with
              | none => .crash
              | some nc =>
                let b7 := b6.drop 4
                match beUint32 (b7.take 4) with
                | none => .crash
                | some plen =>
                  let blob := (b7.drop 4).take plen
                  .ok ⟨lookupPictureType pt, mime, desc, w, h, cd, nc, plen,
                    hexDump blob⟩

/-- binary.Read of one SeekpointBlock: u64 sample number, u64 byte offset,
u16 frame sample count, big endian, from an 18 byte record. -/
def seekpointDecode (r : List Nat) : SeekpointBlock :=
  ⟨beVal (r.take 8), beVal ((r.drop 8).take 8), beVal ((r.drop 16).take 2)⟩

/-- Seektable.Parse: while the buffer is not empty, binary.Read one 18
byte record and append it. When fewer than 18 bytes remain binary.Read
drains them, reports an error that the source ignores, and the appended
record keeps its zero value. -/
def seektableParseAux : Nat → List Nat → List SeekpointBlock
  | _, [] => []
  | 0, _ :: _ => []
  | fuel + 1, b :: rest =>
    (if 18 ≤ (b :: rest).length then seekpointDecode ((b :: rest).take 18)
     else ⟨0, 0, 0⟩) :: seektableParseAux fuel (rest.drop 17)

/-- Seektable.Parse on a whole block; the fuel equals the byte count and
is always sufficient since every iteration consumes at least one byte. -/
def seektableParse (block : List Nat) : List SeekpointBlock :=
  seektableParseAux block.length block

/-- MetadataBlockHeader.Parse: one big endian u32, bit 31 the last flag,
bits 30 to 24 the type code looked up through lookupHeaderType with 127
fatal, bits 23 to 0 the byte length, and for a seektable a multiple of 18
length check plus the uint16 truncated point count. -/
def metadataBlockHeaderParse (block : List Nat) : PResult MetadataBlockHeader :=
  match beUint32 block with
  | none => .crash
  | some bits =>
    let last := bits / 2 ^ 31 = 1
    let bt := bits / 2 ^ 24 % 128
    let ty := lookupHeaderType bt
    if ty = 127 then .err .invalidBlockType
    else
      let len := bits % 2 ^ 24
      if ty = 3 then
        if len % 18 ≠ 0 then .err .seektableHeaderLen
        else .ok ⟨ty, len, last, len / 18 % 2 ^ 16⟩
      else .ok ⟨ty, len, last, 0⟩

/-- CuesheetTrackBlock.ParseIndex: big endian u64 sample offset with the
divisible by 588 check, then the index point byte. An error return leaves
the track unchanged because the caller drops it. -/
def cuesheetParseIndex (block : List Nat) : PResult CuesheetTrackIndexBlock :=
  match beUint64 (block.take 8) with
  | none => .crash
  | some off =>
    if off % 588 ≠ 0 then .err .indexOffset588
    else
      match (block.drop 8)[0]? with
      | none => .crash
      | some p => .ok ⟨off, p % 256⟩

/-- CuesheetBlock.ParseTrack: u64 offset, track number byte with the zero
check, 12 ISRC bytes, the first reserved byte carrying track type and the
pre emphasis flag, then the index point count byte. The returned track has
an empty index list; indexes are appended by the caller. -/
def cuesheetParseTrack (block : List Nat) : PResult CuesheetTrackBlock :=
  match beUint64 (block.take 8) with
  | none => .crash
  | some off =>
    let b1 := block.drop 8
    match b1[0]? with
    | none => .crash
    | some n0 =>
      let num := n0 % 256
      if num = 0 then .err .trackNumberZero
      else
        let b2 := b1.drop 1
        let isrc := b2.take 12
        let b3 := b2.drop 12
        match (b3.take 14)[0]? with
        | none => .crash
        | some r0 =>
          let res := r0 % 256
          let trackType := res / 2 ^ 7 % 2
          let preEmphasis := res / 2 ^ 6 % 2 = 1
          let b4 := b3.drop 14
          match b4[0]? with
          | none => .crash
          | some ip0 =>
            .ok ⟨off, num, isrc, trackType, preEmphasis, ip0 % 256, []⟩

/-- Inner loop of CuesheetBlock.Parse: IndexPoints iterations of
ParseIndex on 12 byte slices; a returned error is silently dropped, a
panic propagates, a parsed index is appended to the track. -/
def cuesheetIndexLoop : Nat → List Nat → CuesheetTrackBlock →
    Option (CuesheetTrackBlock × List Nat)
  | 0, buf, t => some (t, buf)
  | j + 1, buf, t =>
    match cuesheetParseIndex (buf.take 12) with
    | .crash => none
    | .err _ => cuesheetIndexLoop j (buf.drop 12) t
    | .ok idx =>
      cuesheetIndexLoop j (buf.drop 12)
        { t with CuesheetTrackIndexes := t.CuesheetTrackIndexes ++ [idx] }

/-- Outer loop of CuesheetBlock.Parse over TotalTracks iterations with the
running index i. ParseTrack runs on a 36 byte slice and its error return
is silently dropped, so the track is only appended on success; the source
then indexes CuesheetTracks[i], which panics when a failed track left the
list short, and runs the index loop on that track. -/
def cuesheetTracksLoop : Nat → Nat → List Nat → List CuesheetTrackBlock →
    Option (List CuesheetTrackBlock)
  | 0, _, _, tracks => some tracks
  | n + 1, i, buf, tracks =>
    let tracks1 :=
      match cuesheetParseTrack (buf.take 36) with
      | .ok t => some (tracks ++ [t])
      | .err _ => some tracks
      | .crash => none
    match tracks1 with
    | none => none
    | some ts =>
      match ts[i]? with
      | none => none
      | some ti =>
        match cuesheetIndexLoop ti.IndexPoints (buf.drop 36) ti with
        | none => none
        | some (ti2, buf2) => cuesheetTracksLoop n (i + 1) buf2 (ts.set i ti2)

/-- CuesheetBlock.Parse: 128 catalog bytes, u64 lead in samples, 259
reserved bytes whose first top bit is the compact disc flag, the total
track byte with the at least one check, then the track loop whose
per track and per index errors are dropped. -/
def cuesheetBlockParse (block : List Nat) : PResult CuesheetBlock :=
  let catalog := block.take 128
  let b1 := block.drop 128
  match beUint64 (b1.take 8) with
  | none => .crash
  | some leadin =>
    let b2 := b1.drop 8
    match (b2.take 259)[0]? with
    | none => .crash
    | some r0 =>
      let isCD := r0 % 256 / 2 ^ 7 % 2 = 1
      let b3 := b2.drop 259
      match (b3.take 1)[0]? with
      | none => .crash
      | some tt0 =>
        let totalTracks := tt0 % 256
        if totalTracks < 1 then .err .totalTracksZero
        else
          match cuesheetTracksLoop totalTracks 0 (b3.drop 1) [] with
          | none => .crash
          | some tracks => .ok ⟨catalog, leadin, isCD, totalTracks, tracks⟩

/-- Block reading loop of Metadata.Read: read a 4 byte header, parse it,
read the declared body, dispatch on the block type with the duplicate
check first for the six singleton types and unbounded append for
pictures, then stop on the last flag or recurse. -/
def readBlocksAux : Nat → List Nat → Metadata → PResult Metadata
  | 0, _, _ => .err .headerRead
  | fuel + 1, s, meta =>
  if s.length < 4 then .err .headerRead
  else
    match metadataBlockHeaderParse (s.take 4) with
    | .err e => .err e
    | .crash => .crash
    | .ok mbh =>
      let rest := s.drop 4
      if rest.length < mbh.Length then .err .blockRead
      else
        let block := rest.take mbh.Length
        let rest2 := rest.drop mbh.Length
        match mbh.BlockType with
        | 0 =>
          match meta.streaminfo with
          | some _ => .err (.duplicateBlock 0)
          | none =>
            match streaminfoBlockParse block with
            | .err e => .err e
            | .crash => .crash
            | .ok sib =>
              let m2 := { meta with streaminfo := some (mbh, sib) }
              if mbh.Last then .ok m2 else readBlocksAux fuel rest2 m2
        | 4 =>
          match meta.vorbisComment with
          | some _ => .err (.duplicateBlock 4)
          | none =>
            match vorbisCommentBlockParse block with
            | .err e => .err e
            | .crash => .crash
            | .ok vcb =>
              let m2 := { meta with vorbisComment := some (mbh, vcb) }
              if mbh.Last then .ok m2 else readBlocksAux fuel rest2 m2
        | 6 =>
          match pictureBlockParse block with
          | .err e => .err e
          | .crash => .crash
          | .ok fpb =>
            let m2 := { meta with pictures := meta.pictures ++ [(mbh, fpb)] }
            if mbh.Last then .ok m2 else readBlocksAux fuel rest2 m2
        | 1 =>
          match meta.padding with
          | some _ => .err (.duplicateBlock 1)
          | none =>
            let m2 := { meta with padding := some mbh }
            if mbh.Last then .ok m2 else readBlocksAux fuel rest2 m2
        | 2 =>
          match meta.application with
          | some _ => .err (.duplicateBlock 2)
          | none =>
            match applicationBlockParse block with
            | .err e => .err e
            | .crash => .crash
            | .ok fab =>
              let m2 := { meta with application := some (mbh, fab) }
              if mbh.Last then .ok m2 else readBlocksAux fuel rest2 m2
        | 3 =>
          match meta.seektable with
          | some _ => .err (.duplicateBlock 3)
          | none =>
            if block.length % 18 ≠ 0 then .err .seektableBlockLen
            else
              let m2 := { meta with seektable := some (mbh, seektableParse block) }
              if mbh.Last then .ok m2 else readBlocksAux fuel rest2 m2
        | 5 =>
          match meta.cuesheet with
          | some _ => .err (.duplicateBlock 5)
          | none =>
            match cuesheetBlockParse block with
            | .err e => .err e
            | .crash => .crash
            | .ok csb =>
              let m2 := { meta with cuesheet := some (mbh, csb) }
              if mbh.Last then .ok m2 else readBlocksAux fuel rest2 m2
        | _ => readBlocksAux fuel rest2 meta

/-- Block loop entry point: the fuel equals the stream length and is
always sufficient since every iteration consumes at least the 4 header
bytes, and with fuel zero the stream is empty, where the fuel branch
coincides with the short header read error. -/
def readBlocks (s : List Nat) (meta : Metadata) : PResult Metadata :=
  readBlocksAux s.length s meta

/-- Metadata.Read: check the 4 byte fLaC signature, then run the block
loop on the remaining stream starting from the empty aggregate. -/
def metadataRead (s : List Nat) : PResult Metadata :=
  if s.length < 4 then .err .sigRead
  else if s.take 4 ≠ [102, 76, 97, 67] then .err .sigInvalid
  else readBlocks (s.drop 4) emptyMetadata

-- Helper views of a raw 4 byte header, used to state theorems about
-- metadataBlockHeaderParse without fixing concrete bytes.

/-- Value of the big endian u32 of a header, zero on a short header. -/
def headerU32 (hdr : List Nat) : Nat := (beUint32 hdr).getD 0

/-- Bits 30 to 24 of a raw header: the block type code. -/
def typeCodeOf (hdr : List Nat) : Nat := headerU32 hdr / 2 ^ 24 % 128

/-- Bits 23 to 0 of a raw header: the body byte length. -/
def lenFieldOf (hdr : List Nat) : Nat := headerU32 hdr % 2 ^ 24

/-- Bit 31 of a raw header: the last block flag. -/
def lastFlagOf (hdr : List Nat) : Bool := headerU32 hdr / 2 ^ 31 = 1

/-- Whether the singleton slot for block type t is already populated. -/
def slotPopulated (meta : Metadata) (t : Nat) : Bool :=
  match t with
  | 0 => meta.streaminfo.isSome
  | 1 => meta.padding.isSome
  | 2 => meta.application.isSome
  | 3 => meta.seektable.isSome
  | 4 => meta.vorbisComment.isSome
  | 5 => meta.cuesheet.isSome
  | _ => false

-- Wire encoders written from the wording of the spec, used to quantify
-- over well formed block bodies in refinement style statements.

/-- Little endian length field bytes, following the spec wording for the
Vorbis comment framing. -/
def leU32Bytes (n : Nat) : List Nat :=
  [n % 256, n / 256 % 256, n / 65536 % 256, n / 16777216 % 256]

/-- Big endian u32 field bytes, following the spec wording for every
other block. -/
def beU32Bytes (n : Nat) : List Nat :=
  [n / 16777216 % 256, n / 65536 % 256, n / 256 % 256, n % 256]

/-- Modelled from the spec wording of the Vorbis comment layout: vendor
length, vendor bytes, comment count, then each comment with its length,
all length fields little endian. -/
def specVorbisEncode (vendor : List Nat) (comments : List (List Nat)) : List Nat :=
  leU32Bytes vendor.length ++ vendor ++ leU32Bytes comments.length ++
    comments.flatMap (fun c => leU32Bytes c.length ++ c)

-- Concrete fixtures used by the settled claims.

/-- Cuesheet block body whose only defect is one index record with sample
offset 589: catalog, lead in and reserved bytes all zero, one track with
number 1 and one declared index point, then the 12 byte index record with
offset 589. -/
def c1Body : List Nat :=
  List.replicate 128 0 ++ List.replicate 8 0 ++ List.replicate 259 0 ++ [1] ++
    (List.replicate 8 0 ++ [1] ++ List.replicate 12 0 ++
      List.replicate 14 0 ++ [1]) ++
    ([0, 0, 0, 0, 0, 0, 2, 77] ++ [1] ++ [0, 0, 0])

/-- Full stream around c1Body: signature, then a last flagged cuesheet
header of length 444. -/
def c1Stream : List Nat := [102, 76, 97, 67] ++ [133, 0, 1, 188] ++ c1Body

/-- What the decoder actually produces from c1Body: the offending index
has been dropped without any error. -/
def c1Cuesheet : CuesheetBlock :=
  ⟨List.replicate 128 0, 0, false, 1,
    [⟨0, 1, List.replicate 12 0, 0, false, 1, []⟩]⟩

def c1Metadata : Metadata :=
  ⟨none, none, none, [], none, none, some (⟨5, 444, true, 0⟩, c1Cuesheet), 0⟩

/-- Streaminfo body with min block size 4096, then a second group with
max block size 4113, min frame size field 11, max frame size 14, then the
standard test values for the third group and MD5 tail. -/
def c2Fixture : List Nat :=
  [16, 0] ++ [16, 17, 0, 0, 11, 0, 0, 14] ++
    [10, 196, 64, 240, 0, 15, 122, 28] ++
    [229, 204, 201, 103, 206, 214, 193, 17, 83, 14, 92, 121, 227, 60, 150, 158]

/-- Decoded c2Fixture: MinFrameSize carries the low byte of the max block
size field, 0x1100000B = 285212683. -/
def c2Result : StreaminfoBlock :=
  ⟨4096, 4113, 285212683, 14, 44100, 1, 16, 1014300,
    [101, 53, 99, 99, 99, 57, 54, 55, 99, 101, 100, 54, 99, 49, 49, 49,
     53, 51, 48, 101, 53, 99, 55, 57, 101, 51, 51, 99, 57, 54, 57, 101]⟩

/-- Application body: a 4 byte id and a 7 byte data part. -/
def c3Fixture : List Nat := [0, 0, 0, 1] ++ [1, 2, 3, 4, 5, 6, 7]

/-- Application body: a 4 byte id and an 8 byte data part. -/
def c3Fixture8 : List Nat := [0, 0, 0, 1] ++ [1, 2, 3, 4, 5, 6, 7, 8]

/-- Picture body with empty mime and description, one blob byte 65. -/
def c4Fixture : List Nat :=
  beU32Bytes 0 ++ beU32Bytes 0 ++ beU32Bytes 0 ++ beU32Bytes 0 ++
    beU32Bytes 0 ++ beU32Bytes 0 ++ beU32Bytes 0 ++ beU32Bytes 1 ++ [65]

/-- Decoded c4Fixture: the blob field is the hex dump rendering of the
single byte 65, not that byte itself. -/
def c4Result : PictureBlock := ⟨"Other", [], [], 0, 0, 0, 0, 1, hexDump [65]⟩

/-- Vorbis comment body: empty vendor, one comment whose length field
claims 10 bytes while only 3 remain. -/
def c5Fixture : List Nat := [0, 0, 0, 0, 1, 0, 0, 0, 10, 0, 0, 0, 97, 98, 99]

/-- Cuesheet body with one track whose track number is zero; the track
error is dropped and CuesheetTracks[0] is indexed out of range. -/
def c10Body : List Nat := List.replicate 395 0 ++ [1] ++ List.replicate 36 0

/-- Full stream around c10Body: signature, then a last flagged cuesheet
header of length 432. -/
def c10Stream : List Nat := [102, 76, 97, 67] ++ [133, 0, 1, 176] ++ c10Body

/-- Decoded all zero 32 byte picture body: picture type 0, empty mime,
description and blob. -/
def picZero : PictureBlock := ⟨"Other", [], [], 0, 0, 0, 0, 0, []⟩

/-- A metadata aggregate whose streaminfo slot is already populated, used
to exercise the duplicate check. -/
def c6PopMeta : Metadata :=
  ⟨some (⟨0, 34, false, 0⟩, ⟨4096, 4096, 11, 14, 44100, 1, 16, 1014300, []⟩),
    none, none, [], none, none, none, 0⟩

set_option maxRecDepth 100000

/-- C1: the claim says a cuesheet whose only defect is one index with
sample offset 589 is rejected and Metadata.Read aborts with an error. The
code instead ignores the error returns of ParseTrack and ParseIndex:
on c1Stream, whose single index record has offset 589, Metadata.Read
returns success and the offending index is silently dropped, so the
parsed track has one declared but zero stored index points. -/
theorem c1_cuesheet_index_error_ignored : metadataRead c1Stream = .ok c1Metadata := by
  decide

/-- C2: the claim says min frame size is exactly the 24 bit field next to
max block size, containing no bits of max block size for any input. The
code computes uint32 of the group shifted right by 24, keeping 32 bits:
on c2Fixture, with max block size 4113 and min frame size field 11, the
decoder returns MinFrameSize 285212683 = 0x1100000B, which carries the
low byte 0x11 of max block size, instead of 11. -/
theorem c2_minframesize_takes_maxblocksize_bits :
    streaminfoBlockParse c2Fixture = .ok c2Result ∧ c2Result.MinFrameSize ≠ 11 := by
  constructor
  · decide
  · decide

/-- C3: the claim says the id is read from the first 4 bytes, the
remaining body is kept as data, and a 7 byte data part fails while 8 or
16 byte data parts succeed with the data preserved. The code passes
ApplicationIdLen = 32, a bit count, to buf.Next without dividing by 8, so
32 bytes are consumed for the id: the 11 byte body c3Fixture with a 7
byte data part succeeds with empty data, and the 12 byte body c3Fixture8
with an 8 byte data part also loses its data. -/
theorem c3_application_id_consumes_32_bytes :
    applicationBlockParse c3Fixture = .ok ⟨1, []⟩ ∧
    applicationBlockParse c3Fixture8 = .ok ⟨1, []⟩ := by
  constructor
  · decide
  · decide

/-- C5: the claim says a length field claiming more bytes than remain
makes VorbisCommentBlock.Parse fail with a short read error. The code has
no such check: on c5Fixture, whose single comment length field claims 10
bytes while 3 remain, the parse returns success with the truncated
comment. -/
theorem c5_vorbis_overclaim_truncates_silently :
    vorbisCommentBlockParse c5Fixture = .ok ⟨[], 1, [[97, 98, 99]]⟩ := by
  decide

/-- C10: the claim says Metadata.Read never panics. On c10Stream, whose
cuesheet has one track with track number zero, ParseTrack returns an
error that CuesheetBlock.Parse ignores without appending the track, and
the following CuesheetTracks[0] access is out of range: the read
panics. -/
theorem c10_metadata_read_panics : metadataRead c10Stream = .crash := by
  decide

/-- C4 counterexample: the claim says the picture blob field holds the
raw blob bytes unmodified. On c4Fixture, whose blob is the single byte
65, the decoded blob field differs from [65]: it is the hex.Dump
rendering of that byte. -/
theorem c4_blob_not_raw_bytes :
    pictureBlockParse c4Fixture = .ok c4Result ∧ c4Result.PictureBlob ≠ [65] := by
  constructor
  · decide
  · decide

-- Shared lemmas about the header decoder and the wire level readers.

theorem lookupHeaderType_le6 (i : Nat) (h : i ≤ 6) : lookupHeaderType i = i := by
  unfold lookupHeaderType
  split_ifs <;> omega

theorem lookupHeaderType_ge7 (i : Nat) (h : 7 ≤ i) : lookupHeaderType i = 127 := by
  unfold lookupHeaderType
  split_ifs <;> omega

theorem mbhParse_invalid (a b c d : Nat) (h : 7 ≤ typeCodeOf [a, b, c, d]) :
    metadataBlockHeaderParse [a, b, c, d] = .err .invalidBlockType := by
  have h127 := lookupHeaderType_ge7 _ h
  simp only [typeCodeOf, headerU32, beUint32, Option.getD_some] at h127
  simp only [metadataBlockHeaderParse, beUint32, h127]
  simp

theorem readBlocksAux_invalidType (fuel a b c d : Nat) (rest : List Nat) (meta : Metadata)
    (hf : 0 < fuel) (h : 7 ≤ typeCodeOf [a, b, c, d]) :
    readBlocksAux fuel (a :: b :: c :: d :: rest) meta = .err .invalidBlockType := by
  obtain ⟨f, rfl⟩ : ∃ f, fuel = f + 1 := ⟨fuel - 1, by omega⟩
  have hp : metadataBlockHeaderParse ((a :: b :: c :: d :: rest).take 4) =
      .err .invalidBlockType := by
    simpa using mbhParse_invalid a b c d h
  simp only [readBlocksAux, hp]
  simp

theorem mbhParse_ok (a b c d : Nat) (h : typeCodeOf [a, b, c, d] ≤ 6)
    (h3 : typeCodeOf [a, b, c, d] = 3 → lenFieldOf [a, b, c, d] % 18 = 0) :
    metadataBlockHeaderParse [a, b, c, d] =
      .ok ⟨typeCodeOf [a, b, c, d], lenFieldOf [a, b, c, d], lastFlagOf [a, b, c, d],
        if typeCodeOf [a, b, c, d] = 3 then lenFieldOf [a, b, c, d] / 18 % 2 ^ 16 else 0⟩ := by
  have hlk := lookupHeaderType_le6 _ h
  simp only [typeCodeOf, headerU32, beUint32, Option.getD_some] at hlk h3 h
  simp only [typeCodeOf, lenFieldOf, lastFlagOf, headerU32, beUint32, Option.getD_some] at h3 ⊢
  simp only [metadataBlockHeaderParse, beUint32, hlk]
  rw [if_neg (by omega)]
  by_cases ht : (((a % 256 * 256 + b % 256) * 256 + c % 256) * 256 + d % 256) / 2 ^ 24 % 128 = 3
  · rw [if_pos ht, if_neg (by simpa using h3 ht), if_pos ht]
  · rw [if_neg ht, if_neg ht]

theorem readBlocksAux_duplicate (fuel t a b c d : Nat) (rest : List Nat) (meta : Metadata)
    (hf : 0 < fuel) (ht : t ≤ 5) (hpop : slotPopulated meta t = true)
    (hcode : typeCodeOf [a, b, c, d] = t)
    (h18 : t = 3 → lenFieldOf [a, b, c, d] % 18 = 0)
    (hlen : lenFieldOf [a, b, c, d] ≤ rest.length) :
    readBlocksAux fuel (a :: b :: c :: d :: rest) meta = .err (.duplicateBlock t) := by
  obtain ⟨f, rfl⟩ : ∃ f, fuel = f + 1 := ⟨fuel - 1, by omega⟩
  have hp : metadataBlockHeaderParse ((a :: b :: c :: d :: rest).take 4) =
      .ok ⟨t, lenFieldOf [a, b, c, d], lastFlagOf [a, b, c, d],
        if t = 3 then lenFieldOf [a, b, c, d] / 18 % 2 ^ 16 else 0⟩ := by
    have hm := mbhParse_ok a b c d (by omega) (by rw [hcode]; exact h18)
    rw [hcode] at hm
    simpa using hm
  rcases meta with ⟨si, app, vc, pics, pad, st, cs, tb⟩
  simp only [readBlocksAux, hp, List.length_cons, List.drop_succ_cons, List.drop_zero]
  rw [if_neg (by omega), if_neg (by simpa using hlen)]
  interval_cases t
  · rcases si with _ | v
    · simp [slotPopulated] at hpop
    · simp
  · rcases pad with _ | v
    · simp [slotPopulated] at hpop
    · simp
  · rcases app with _ | v
    · simp [slotPopulated] at hpop
    · simp
  · rcases st with _ | v
    · simp [slotPopulated] at hpop
    · simp
  · rcases vc with _ | v
    · simp [slotPopulated] at hpop
    · simp
  · rcases cs with _ | v
    · simp [slotPopulated] at hpop
    · simp

theorem mbhParse_seektableLen (a b c d : Nat) (h3 : typeCodeOf [a, b, c, d] = 3)
    (h18 : lenFieldOf [a, b, c, d] % 18 ≠ 0) :
    metadataBlockHeaderParse [a, b, c, d] = .err .seektableHeaderLen := by
  have hlk := lookupHeaderType_le6 _ (by omega : typeCodeOf [a, b, c, d] ≤ 6)
  rw [h3] at hlk
  simp only [typeCodeOf, headerU32, beUint32, Option.getD_some] at h3
  simp only [lenFieldOf, headerU32, beUint32, Option.getD_some] at h18
  simp only [metadataBlockHeaderParse, beUint32, h3, hlk]
  rw [if_neg (by norm_num), if_pos trivial, if_pos h18]

theorem seektableParseAux_records : ∀ (k fuel : Nat) (body : List Nat),
    body.length = 18 * k → body.length ≤ fuel →
    seektableParseAux fuel body =
      (List.range k).map (fun i => seekpointDecode ((body.drop (18 * i)).take 18))
  | 0, fuel, body, hl, _ => by
    have : body = [] := List.length_eq_zero.mp (by omega)
    subst this
    cases fuel <;> simp [seektableParseAux]
  | k + 1, fuel, body, hl, hf => by
    obtain ⟨b, rest, rfl⟩ : ∃ b rest, body = b :: rest := by
      cases body with
      | nil => simp at hl
      | cons b rest => exact ⟨b, rest, rfl⟩
    obtain ⟨f, rfl⟩ : ∃ f, fuel = f + 1 := ⟨fuel - 1, by simp at hf hl; omega⟩
    have hlr : (rest.drop 17).length = 18 * k := by
      simp at hl ⊢
      omega
    have hfr : (rest.drop 17).length ≤ f := by
      simp at hf hl ⊢
      omega
    have ih := seektableParseAux_records k f (rest.drop 17) hlr hfr
    simp only [seektableParseAux, ih]
    rw [if_pos (by simp at hl ⊢; omega)]
    rw [List.range_succ_eq_map]
    simp only [List.map_cons, List.map_map, Nat.mul_zero, List.drop_zero]
    refine List.cons_eq_cons.mpr ⟨rfl, ?_⟩
    apply List.map_congr_left
    intro i hi
    simp only [Function.comp_apply, List.drop_drop]
    have h1 : 18 * (i + 1) = 17 + 18 * i + 1 := by omega
    rw [h1, List.drop_succ_cons]

theorem leUint32_bytes (n : Nat) (rest : List Nat) (h : n < 2 ^ 32) :
    leUint32 (leU32Bytes n ++ rest) = some n := by
  simp [leU32Bytes, leUint32]
  omega

theorem drop4_leU32Bytes (n : Nat) (rest : List Nat) : (leU32Bytes n ++ rest).drop 4 = rest := by
  simp [leU32Bytes]

theorem vcLoop_encode : ∀ (cs : List (List Nat)) (acc : List (List Nat)),
    (∀ c ∈ cs, c.length < 2 ^ 32) →
    vcLoop cs.length (cs.flatMap (fun c => leU32Bytes c.length ++ c)) acc = some (acc ++ cs)
  | [], acc, _ => by simp [vcLoop]
  | c :: cs, acc, h => by
    have hc : c.length < 2 ^ 32 := h c (by simp)
    have ih := vcLoop_encode cs (acc ++ [c]) (fun x hx => h x (by simp [hx]))
    simp only [List.flatMap_cons, List.length_cons, vcLoop, List.append_assoc]
    rw [leUint32_bytes _ _ hc, drop4_leU32Bytes]
    simp only [List.take_left, List.drop_left]
    rw [ih]
    simp

theorem beUint32_take4 (n : Nat) (rest : List Nat) (h : n < 2 ^ 32) :
    beUint32 ((beU32Bytes n ++ rest).take 4) = some n := by
  simp [beU32Bytes, beUint32]
  omega

theorem drop4_beU32Bytes (n : Nat) (rest : List Nat) : (beU32Bytes n ++ rest).drop 4 = rest := by
  simp [beU32Bytes]

-- The four confirmed claims and the amended C4, each with its witness.

/-- C6: for each of the six singleton block types, when the read loop
meets a block of a type whose slot is already populated, whatever the
body bytes and whatever follows, it stops with the duplicate block error;
pictures instead are always appended with no cardinality check, shown on
an arbitrary aggregate regardless of how many pictures it already
holds. -/
theorem c6_singleton_duplicate_rejected :
    (∀ (t a b c d : Nat) (rest : List Nat) (meta : Metadata),
      t ≤ 5 → slotPopulated meta t = true → typeCodeOf [a, b, c, d] = t →
      (t = 3 → lenFieldOf [a, b, c, d] % 18 = 0) →
      lenFieldOf [a, b, c, d] ≤ rest.length →
      readBlocks (a :: b :: c :: d :: rest) meta = .err (.duplicateBlock t)) ∧
    (∀ meta : Metadata,
      readBlocks ([134, 0, 0, 32] ++ List.replicate 32 0) meta =
        .ok { meta with pictures := meta.pictures ++ [(⟨6, 32, true, 0⟩, picZero)] }) := by
  constructor
  · intro t a b c d rest meta ht hpop hcode h18 hlen
    exact readBlocksAux_duplicate _ t a b c d rest meta (by simp) ht hpop hcode h18 hlen
  · intro meta
    rcases meta with ⟨si, app, vc, pics, pad, st, cs, tb⟩
    rfl

/-- C6 witness: a second streaminfo header with a 34 byte body on an
aggregate whose streaminfo slot is populated yields the duplicate error,
and a picture block is appended to that same aggregate. -/
theorem c6_singleton_duplicate_witness :
    readBlocks (0 :: 0 :: 0 :: 34 :: List.replicate 34 0) c6PopMeta =
      .err (.duplicateBlock 0) ∧
    readBlocks ([134, 0, 0, 32] ++ List.replicate 32 0) c6PopMeta =
      .ok { c6PopMeta with pictures := c6PopMeta.pictures ++ [(⟨6, 32, true, 0⟩, picZero)] } :=
  ⟨c6_singleton_duplicate_rejected.1 0 0 0 0 34 (List.replicate 34 0) c6PopMeta
      (by decide) (by decide) (by decide) (by decide) (by decide),
    c6_singleton_duplicate_rejected.2 c6PopMeta⟩

/-- C7: every raw 4 byte header whose 7 bit type code is 7 or more, which
covers the unassigned codes 7 to 126 and the reserved marker 127, makes
MetadataBlockHeader.Parse return the invalid block type error, and
Metadata.Read on a stream carrying that header after the signature stops
with that same error instead of skipping the body. -/
theorem c7_unknown_block_type_rejected (hdr rest : List Nat) (h4 : hdr.length = 4)
    (h : 7 ≤ typeCodeOf hdr) :
    metadataBlockHeaderParse hdr = .err .invalidBlockType ∧
    metadataRead ([102, 76, 97, 67] ++ hdr ++ rest) = .err .invalidBlockType := by
  obtain ⟨a, b, c, d, rfl⟩ : ∃ a b c d, hdr = [a, b, c, d] := by
    match hdr, h4 with
    | [a, b, c, d], _ => exact ⟨a, b, c, d, rfl⟩
  refine ⟨mbhParse_invalid a b c d h, ?_⟩
  show metadataRead (102 :: 76 :: 97 :: 67 :: (a :: b :: c :: d :: rest)) = _
  simp only [metadataRead, readBlocks]
  norm_num
  exact readBlocksAux_invalidType _ a b c d rest emptyMetadata (by simp) h

/-- C7 witness: the header with type code 7 and length 0 is rejected both
by the header decoder and by the whole read. -/
theorem c7_unknown_block_type_witness :
    metadataBlockHeaderParse [7, 0, 0, 0] = .err .invalidBlockType ∧
    metadataRead ([102, 76, 97, 67] ++ [7, 0, 0, 0] ++ []) = .err .invalidBlockType :=
  c7_unknown_block_type_rejected [7, 0, 0, 0] [] (by decide) (by decide)

/-- C8: a seektable header whose 24 bit length field is not a multiple of
18 is rejected by MetadataBlockHeader.Parse, and every body of length
18 times k decodes to exactly k seek points where the point at index i is
the big endian decode of the i th 18 byte record, u64 sample number, u64
offset, u16 frame sample count; placeholder records carry no special
handling and fall under the same equation. -/
theorem c8_seektable_exact_records :
    (∀ a b c d : Nat, typeCodeOf [a, b, c, d] = 3 → lenFieldOf [a, b, c, d] % 18 ≠ 0 →
      metadataBlockHeaderParse [a, b, c, d] = .err .seektableHeaderLen) ∧
    (∀ (k : Nat) (body : List Nat), body.length = 18 * k →
      seektableParse body =
        (List.range k).map (fun i => seekpointDecode ((body.drop (18 * i)).take 18))) := by
  refine ⟨fun a b c d h3 h18 => mbhParse_seektableLen a b c d h3 h18, fun k body hl => ?_⟩
  exact seektableParseAux_records k body.length body hl le_rfl

/-- C8 witness: the seektable header with length 19 is rejected, and a 36
byte body decodes to the two records given by the stated equation. -/
theorem c8_seektable_witness :
    metadataBlockHeaderParse [3, 0, 0, 19] = .err .seektableHeaderLen ∧
    seektableParse (List.range 36) =
      (List.range 2).map (fun i => seekpointDecode (((List.range 36).drop (18 * i)).take 18)) :=
  ⟨c8_seektable_exact_records.1 3 0 0 19 (by decide) (by decide),
    c8_seektable_exact_records.2 2 (List.range 36) (by decide)⟩

/-- C9: on every well formed body, built from any vendor byte string and
any list of comment byte strings framed with little endian length fields
as the embedded Vorbis layout prescribes, the decoder recovers the vendor
and every comment byte string verbatim, with no shape requirement on the
comments, and the Comments list length equals the decoded comment count
field. -/
theorem c9_vorbis_little_endian_roundtrip :
    ∀ (vendor : List Nat) (comments : List (List Nat)),
      vendor.length < 2 ^ 32 → comments.length < 2 ^ 32 →
      (∀ c ∈ comments, c.length < 2 ^ 32) →
      vorbisCommentBlockParse (specVorbisEncode vendor comments) =
        .ok ⟨vendor, comments.length, comments⟩ := by
  intro vendor comments hv hc hcs
  simp only [specVorbisEncode, vorbisCommentBlockParse, List.append_assoc]
  rw [leUint32_bytes _ _ hv, drop4_leU32Bytes]
  simp only [List.take_left, List.drop_left]
  rw [leUint32_bytes _ _ hc, drop4_leU32Bytes]
  simp only [vcLoop_encode comments [] hcs, List.nil_append]

/-- C9 witness: a one byte vendor and the single comment A=B, not in
KEY=VALUE shape enforcement danger, round trip exactly with comment count
1. -/
theorem c9_vorbis_witness :
    vorbisCommentBlockParse (specVorbisEncode [118] [[65, 61, 66]]) =
      .ok ⟨[118], 1, [[65, 61, 66]]⟩ :=
  c9_vorbis_little_endian_roundtrip [118] [[65, 61, 66]] (by decide) (by decide) (by decide)

/-- C4 amended: the blob field of a decoded picture is the hex.Dump
rendering of exactly the blob length raw bytes that follow the blob
length field; the bytes fed to the dump are taken verbatim from the body,
but the stored field is the dump string rather than the raw bytes. -/
theorem c4_blob_hexdump_of_raw_bytes :
    ∀ (t w h cd nc : Nat) (mime desc blob : List Nat),
      t < 2 ^ 32 → w < 2 ^ 32 → h < 2 ^ 32 → cd < 2 ^ 32 → nc < 2 ^ 32 →
      mime.length < 2 ^ 32 → desc.length < 2 ^ 32 → blob.length < 2 ^ 32 →
      pictureBlockParse
        (beU32Bytes t ++ (beU32Bytes mime.length ++ (mime ++ (beU32Bytes desc.length ++
          (desc ++ (beU32Bytes w ++ (beU32Bytes h ++ (beU32Bytes cd ++
          (beU32Bytes nc ++ (beU32Bytes blob.length ++ blob)))))))))) =
      .ok ⟨lookupPictureType t, mime, desc, w, h, cd, nc, blob.length, hexDump blob⟩ := by
  intro t w h cd nc mime desc blob ht hw hh hcd hnc hm hd hb
  by_cases h0 : 0 < desc.length
  · simp [pictureBlockParse, beUint32_take4 _ _ ht, beUint32_take4 _ _ hm,
      beUint32_take4 _ _ hd, beUint32_take4 _ _ hw, beUint32_take4 _ _ hh,
      beUint32_take4 _ _ hcd, beUint32_take4 _ _ hnc, beUint32_take4 _ _ hb,
      drop4_beU32Bytes, List.take_left, List.drop_left, h0]
  · have hde : desc = [] := List.length_eq_zero.mp (by omega)
    subst hde
    simp only [pictureBlockParse, List.length_nil, List.nil_append,
      beUint32_take4 _ _ ht, beUint32_take4 _ _ hm,
      beUint32_take4 0 _ (by norm_num), beUint32_take4 _ _ hw,
      beUint32_take4 _ _ hh, beUint32_take4 _ _ hcd, beUint32_take4 _ _ hnc,
      beUint32_take4 _ _ hb, drop4_beU32Bytes, List.take_left, List.drop_left,
      lt_self_iff_false, if_false, List.take_length]

/-- C4 amended witness: the picture body with empty mime and description
and the one byte blob 65 decodes with the blob field equal to the hex
dump of that byte. -/
theorem c4_blob_hexdump_witness :
    pictureBlockParse
      (beU32Bytes 0 ++ (beU32Bytes 0 ++ ([] ++ (beU32Bytes 0 ++
        ([] ++ (beU32Bytes 0 ++ (beU32Bytes 0 ++ (beU32Bytes 0 ++
        (beU32Bytes 0 ++ (beU32Bytes 1 ++ [65])))))))))) =
      .ok ⟨"Other", [], [], 0, 0, 0, 0, 1, hexDump [65]⟩ :=
  c4_blob_hexdump_of_raw_bytes 0 0 0 0 0 [] [] [65] (by norm_num) (by norm_num)
    (by norm_num) (by norm_num) (by norm_num) (by decide) (by decide) (by decide)

end Flac
